import Mathlib

/-!
# Verification of the trogon / textual-click command schema model and invocation serializer

A shallow embedding of `src/textual_click/textual_click.py` and
`src/textual_click/widgets/multiple_choice.py`, together with the parts of the
data model (`ParameterSchema`, `CommandSchema`, `UserCommandData`, the
invocation serializer) that the repository's spec describes but whose modules
(`introspect.py`, `run_command.py`, `form.py`) are not among the staged source
files; those are modelled from the spec's words and marked as such.
-/

/-! ## Data model (spec §3) -/

/-- Modelled from the spec: `introspect.py` is not among the staged sources.
Parameter kind per §3: FLAG (boolean, no value), OPTION (named, valued),
ARGUMENT (positional). -/
inductive ParameterKind where
  | flag
  | option
  | argument
deriving DecidableEq

/-- Modelled from the spec: multiplicity per §3, {single, multiple}. -/
inductive Multiplicity where
  | single
  | multiple
deriving DecidableEq

/-- Modelled from the spec: the semantic primitive value types of §3
(string, integer, float, path, enumerated choice set). -/
inductive ValueType where
  | stringT
  | intT
  | floatT
  | pathT
  | choiceT
deriving DecidableEq

/-- A coerced parameter value: raw text already coerced to its `value_type`.
Float values are kept as their validated decimal text (this development does
not reason about floating point). -/
inductive PValue where
  | strV (s : String)
  | intV (n : Int)
deriving DecidableEq

/-- Textual form of a value for serialization (§4.3 step 2: "coerce the value
to its textual form (e.g., integers render without leading zeros; paths render
as given)"). -/
def renderValue : PValue → String
  | .strV s => s
  | .intV n => toString n

/-- What `UserCommandData.values` stores for one parameter (§3): a boolean for
FLAG-kind parameters, a scalar for single-multiplicity parameters and an
ordered sequence for multiple-multiplicity parameters. -/
inductive StoredValue where
  | flagV (b : Bool)
  | singleV (v : PValue)
  | multiV (vs : List PValue)
deriving DecidableEq

/-- Modelled from the spec (§3): the immutable description of one parameter. -/
structure ParameterSchema where
  name : String
  kind : ParameterKind
  value_type : ValueType
  multiplicity : Multiplicity
  required : Bool
  default : Option StoredValue
  choices : Option (List String)
deriving DecidableEq

/-- Modelled from the spec (§3): one command node. Only the fields the
serializer and the claims use are carried; the subcommand tree structure is
represented by root-to-leaf paths (`List CommandSchema`). -/
structure CommandSchema where
  name : String
  docstring : String
  parameters : List ParameterSchema
deriving DecidableEq

/-- Modelled from the spec (§3): the per-session record of user-entered
values for one selected command node, with its root-to-node path. -/
structure UserCommandData where
  path : List CommandSchema
  values : List (String × StoredValue)
deriving DecidableEq

/-- Lookup of a stored value by parameter name. -/
def lookupValue (values : List (String × StoredValue)) (name : String) :
    Option StoredValue :=
  (values.find? (fun kv => kv.1 == name)).map (fun kv => kv.2)

/-- The stored value if present, else the schema default (§3: defaults are
"used when the user leaves the field untouched"). -/
def storedOrDefault (values : List (String × StoredValue)) (p : ParameterSchema) :
    Option StoredValue :=
  match lookupValue values p.name with
  | some v => some v
  | none => p.default

/-! ## Invocation serializer (spec §4.3; `run_command.py` is not in src/) -/

/-- Modelled from the spec: `run_command.py`'s serializer is not among the
staged sources. The tokens one parameter of the leaf command contributes
(§4.3 step 2): a FLAG emits its token alone iff the stored boolean is present
and true; a single OPTION emits flag token then one value token when a value
is present (explicit or default); a multiple OPTION emits the flag token once
per stored value, each immediately followed by that value's text; ARGUMENTs
emit bare value tokens. -/
def emitParam (values : List (String × StoredValue)) (p : ParameterSchema) :
    List String :=
  match p.kind with
  | .flag =>
    match lookupValue values p.name with
    | some (.flagV true) => [p.name]
    | _ => []
  | .option =>
    match p.multiplicity with
    | .single =>
      match storedOrDefault values p with
      | some (.singleV v) => [p.name, renderValue v]
      | _ => []
    | .multiple =>
      match storedOrDefault values p with
      | some (.multiV vs) => vs.flatMap (fun v => [p.name, renderValue v])
      | _ => []
  | .argument =>
    match p.multiplicity with
    | .single =>
      match storedOrDefault values p with
      | some (.singleV v) => [renderValue v]
      | _ => []
    | .multiple =>
      match storedOrDefault values p with
      | some (.multiV vs) => vs.map renderValue
      | _ => []

/-- Modelled from the spec (§4.3 step 1): the command-path tokens. The root
command's own name is emitted only if `include_root` is true; every
subsequent node's name is always emitted, in path order. -/
def pathTokens (include_root : Bool) : List CommandSchema → List String
  | [] => []
  | root :: rest =>
    (if include_root then [root.name] else []) ++ rest.map CommandSchema.name

/-- Modelled from the spec (§4.3 steps 2-3): `argv` is the path tokens, then
the leaf command's non-positional parameters in declared order, then its
positional arguments in declared order (arguments always follow options). -/
def toCliArgs (data : UserCommandData) (include_root : Bool) : List String :=
  let leafParams :=
    match data.path.getLast? with
    | some leaf => leaf.parameters
    | none => []
  let opts := leafParams.filter (fun p => !(p.kind == ParameterKind.argument))
  let args := leafParams.filter (fun p => p.kind == ParameterKind.argument)
  pathTokens include_root data.path ++
    opts.flatMap (emitParam data.values) ++ args.flatMap (emitParam data.values)

/-! ## include_root at the two call sites (textual_click.py) -/

/-- From `CommandBuilder._update_execution_string_preview`
(textual_click.py line 178): `include_root = not self.is_grouped_cli`. -/
def CommandBuilder.include_root (is_grouped_cli : Bool) : Bool :=
  !is_grouped_cli

/-- From `TextualClick.update_command_to_run` (textual_click.py line 246):
`include_root_command = not self.is_grouped_cli`. -/
def TextualClick.include_root_command (is_grouped_cli : Bool) : Bool :=
  !is_grouped_cli

/-! ## Shell quoting and the display string (textual_click.py lines 236-242) -/

/-- The characters Python's `shlex.quote` leaves unquoted: ASCII alphanumerics
and `_ @ % + = : , . / -` (`shlex._find_unsafe`). -/
def shlexSafeChar (c : Char) : Bool :=
  c.isAlphanum || c = '_' || c = '@' || c = '%' || c = '+' || c = '=' ||
    c = ':' || c = ',' || c = '.' || c = '/' || c = '-'

/-- How one character of a single-quoted token is written: `shlex.quote`
replaces each `'` by `'"'"'` (close the single quotes, a double-quoted
single quote, reopen). -/
def escQuoteChar (c : Char) : List Char :=
  if c = '\'' then ['\'', '"', '\'', '"', '\''] else [c]

/-- The body of a single-quoted token: `s.replace("'", "'\"'\"'")`. -/
def escQuoted (l : List Char) : List Char :=
  (l.map escQuoteChar).flatten

/-- Python's `shlex.quote` (used at textual_click.py line 240): the empty
string becomes `''`; a string of safe characters is returned as is; anything
else is wrapped in single quotes with embedded single quotes escaped. -/
def shlexQuote (s : String) : String :=
  if s.toList = [] then "''"
  else if s.toList.all shlexSafeChar then s
  else String.mk ('\'' :: (escQuoted s.toList ++ ['\'']))

/-- Python's `' '.join` (textual_click.py line 240). -/
def joinSpace : List String → String
  | [] => ""
  | [s] => s
  | s :: rest => s ++ " " ++ joinSpace rest

/-- From `TextualClick.run` (line 240): the command string shown to the user,
`' '.join(shlex.quote(s) for s in argv)`. -/
def displayString (argv : List String) : String :=
  joinSpace (argv.map shlexQuote)

/-- Modelled from the spec: `run_command.py`'s `to_cli_string` is not among
the staged sources; §4.3 step 4 builds the display string from `argv` with
shell-safe quoting. -/
def toCliString (data : UserCommandData) (include_root : Bool) : String :=
  displayString (toCliArgs data include_root)

/-! ## A POSIX-shell-compatible tokenizer (spec §8: "re-tokenizing it with a
POSIX-shell-compatible tokenizer yields exactly `argv`") -/

/-- The quoting states of POSIX shell field recognition: outside quotes,
inside single quotes, inside double quotes, and the two transient states
entered right after an unquoted (`normEsc`) or double-quoted (`doubleEsc`)
backslash. -/
inductive QuoteMode where
  | norm
  | single
  | double
  | normEsc
  | doubleEsc
deriving DecidableEq

/-- Unquoted blank characters that separate fields. -/
def isShellSpace (c : Char) : Bool :=
  c = ' ' || c = '\t' || c = '\n'

/-- The characters a backslash escapes inside double quotes (POSIX: dollar,
backquote, double quote, backslash). -/
def doubleQuoteEscapable (c : Char) : Bool :=
  c = '"' || c = '\\' || c = '$' || c = Char.ofNat 96

/-- One pass of POSIX shell field splitting and quote removal. The second
argument is the quoting state, the third the current field (`none` when not
inside a field; `some acc` holds the field text recognised so far). -/
def tokenizeAux : List Char → QuoteMode → Option (List Char) → List String
  | [], .norm, none => []
  | [], .norm, some acc => [String.mk acc]
  | [], .single, none => []
  | [], .single, some acc => [String.mk acc]
  | [], .double, none => []
  | [], .double, some acc => [String.mk acc]
  | [], .normEsc, w => [String.mk (w.getD [] ++ ['\\'])]
  | [], .doubleEsc, w => [String.mk (w.getD [] ++ ['\\'])]
  | c :: cs, .norm, w =>
    if isShellSpace c then
      match w with
      | some acc => String.mk acc :: tokenizeAux cs .norm none
      | none => tokenizeAux cs .norm none
    else if c = '\'' then tokenizeAux cs .single (some (w.getD []))
    else if c = '"' then tokenizeAux cs .double (some (w.getD []))
    else if c = '\\' then tokenizeAux cs .normEsc w
    else tokenizeAux cs .norm (some (w.getD [] ++ [c]))
  | c :: cs, .normEsc, w => tokenizeAux cs .norm (some (w.getD [] ++ [c]))
  | c :: cs, .single, w =>
    if c = '\'' then tokenizeAux cs .norm (some (w.getD []))
    else tokenizeAux cs .single (some (w.getD [] ++ [c]))
  | c :: cs, .double, w =>
    if c = '"' then tokenizeAux cs .norm (some (w.getD []))
    else if c = '\\' then tokenizeAux cs .doubleEsc w
    else tokenizeAux cs .double (some (w.getD [] ++ [c]))
  | c :: cs, .doubleEsc, w =>
    if doubleQuoteEscapable c then tokenizeAux cs .double (some (w.getD [] ++ [c]))
    else tokenizeAux cs .double (some (w.getD [] ++ ['\\', c]))

/-- POSIX-shell-compatible tokenization of a command line. -/
def shellTokenize (s : String) : List String :=
  tokenizeAux s.toList .norm none

/-! ## CommandBuilder screen state (textual_click.py lines 42-198) -/

/-- The fields of `CommandBuilder` the selection / edit / preview logic
touches: `selected_command_schema`, `command_data` (initialised to `None` at
line 61) and the rendered execution preview. -/
structure BuilderState where
  selected_command_schema : Option CommandSchema
  command_data : Option UserCommandData
  preview : Option String
deriving DecidableEq

/-- From `CommandBuilder.__init__` (line 61): `self.command_data = None`. -/
def BuilderState.init : BuilderState :=
  { selected_command_schema := none, command_data := none, preview := none }

/-- From `CommandBuilder._update_execution_string_preview` (lines 172-183):
when `self.command_data` is not `None` the preview box is set to
`$ <click_app_name> <command_data.to_cli_string(include_root)>` with
`include_root = not is_grouped_cli`. -/
def updateExecutionStringPreview (click_app_name : String) (is_grouped_cli : Bool)
    (s : BuilderState) : BuilderState :=
  match s.command_data with
  | none => s
  | some d =>
    let line := "$ " ++ click_app_name ++ " " ++
      toCliString d (CommandBuilder.include_root is_grouped_cli)
    { s with preview := some line }

/-- From `CommandBuilder._refresh_command_form` (lines 132-145): store the
highlighted node's schema, recompute the preview from the current
`self.command_data`, and remount the form body (the remounted form later
posts its own `CommandForm.Changed` event). -/
def refreshCommandForm (click_app_name : String) (is_grouped_cli : Bool)
    (node : CommandSchema) (s : BuilderState) : BuilderState :=
  updateExecutionStringPreview click_app_name is_grouped_cli
    { s with selected_command_schema := some node }

/-- From `CommandBuilder.selected_command_changed` (lines 147-153): a
`Tree.NodeHighlighted` event runs `_refresh_command_form` on the node. -/
def selectedCommandChanged (click_app_name : String) (is_grouped_cli : Bool)
    (node : CommandSchema) (s : BuilderState) : BuilderState :=
  refreshCommandForm click_app_name is_grouped_cli node s

/-- From `CommandBuilder.update_command_data` (lines 155-161): a
`CommandForm.Changed` event stores `event.command_data` and immediately
recomputes the preview from it. -/
def updateCommandData (click_app_name : String) (is_grouped_cli : Bool)
    (event_command_data : UserCommandData) (s : BuilderState) : BuilderState :=
  updateExecutionStringPreview click_app_name is_grouped_cli
    { s with command_data := some event_command_data }

/-- Modelled from the spec: `form.py` is not among the staged sources; §6 says
the core answers a node selection "by producing a fresh UserCommandData and
the corresponding initial CommandInvocation (reflecting defaults only)" — no
explicit values, defaults applied at serialization time. -/
def freshCommandData (path : List CommandSchema) : UserCommandData :=
  { path := path, values := [] }

/-! ## TextualClick application state and exit-time launch (lines 201-247) -/

/-- The fields of `TextualClick` that decide the exit-time launch:
`execute_on_exit` and `post_run_command` (lines 212-214). -/
structure TextualClickState where
  execute_on_exit : Bool
  post_run_command : List String
deriving DecidableEq

/-- From `TextualClick.__init__` (lines 212-214): `post_run_command = []`,
`execute_on_exit = False`. -/
def TextualClickState.init : TextualClickState :=
  { execute_on_exit := false, post_run_command := [] }

/-- The events of the running app that touch those fields:
`CommandBuilder.action_close_and_run` (lines 125-127), `on_button_pressed`
(lines 221-224) and `CommandForm.Changed` (lines 244-247). -/
inductive AppEvent where
  | action_close_and_run
  | button_pressed (id : String)
  | form_changed (data : UserCommandData)

/-- One event handler step: `action_close_and_run` sets `execute_on_exit`
and exits; `on_button_pressed` does the same for the `home-exec-button`
button; `update_command_to_run` recomputes `post_run_command` from the
event's data with `include_root_command = not is_grouped_cli`. -/
def stepEvent (is_grouped_cli : Bool) (s : TextualClickState) :
    AppEvent → TextualClickState
  | .action_close_and_run => { s with execute_on_exit := true }
  | .button_pressed i =>
    if i = "home-exec-button" then { s with execute_on_exit := true } else s
  | .form_changed d =>
    { s with post_run_command :=
        toCliArgs d (TextualClick.include_root_command is_grouped_cli) }

/-- The app state after a run that handled `events` in order. -/
def runTrace (is_grouped_cli : Bool) (events : List AppEvent) : TextualClickState :=
  events.foldl (stepEvent is_grouped_cli) TextualClickState.init

/-- From `TextualClick.run` (lines 226-242): after the interactive app
returns, `os.execvp(app_name, [app_name, *post_run_command])` replaces the
process iff `post_run_command` is non-empty (outer `if`) and, again
non-empty, `execute_on_exit` is set (inner `if`); otherwise the method just
returns. `some argv` is the argv the process is replaced with. -/
def postRunLaunch (app_name : String) (s : TextualClickState) :
    Option (List String) :=
  if s.post_run_command ≠ [] then
    if s.post_run_command ≠ [] ∧ s.execute_on_exit = true then
      some (app_name :: s.post_run_command)
    else none
  else none

/-- An event is an explicit commit action: the `ctrl+r` binding
(`action_close_and_run`) or the `home-exec-button` button. -/
def isCommitEvent : AppEvent → Prop
  | .action_close_and_run => True
  | .button_pressed i => i = "home-exec-button"
  | .form_changed _ => False

/-! ## UserCommandData field edits (spec §4.2; `run_command.py` is not in src/) -/

/-- Modelled from the spec (§7): the validation error taxonomy for a field
edit (unknown parameter name, failed type coercion, violated choice set). -/
inductive ValidationError where
  | noSuchParameter (name : String)
  | coercionFailed (name : String) (raw : String)
  | notInChoices (name : String) (raw : String)
deriving DecidableEq

/-- Syntactic well-formedness of a decimal (float) literal: optional sign,
at least one digit, at most one decimal point. Stands in for text-to-float
coercibility so that no floating-point reasoning is needed. -/
def isFloatText (s : String) : Bool :=
  let l := match s.toList with
    | '-' :: rest => rest
    | l => l
  !l.isEmpty && l.all (fun c => c.isDigit || c = '.') &&
    l.count '.' ≤ 1 && l.any Char.isDigit

/-- Modelled from the spec (§4.2): coerce the raw text against the declared
`value_type`; `none` when the text does not coerce. -/
def coerceValue (vt : ValueType) (raw : String) : Option PValue :=
  match vt with
  | .stringT => some (.strV raw)
  | .pathT => some (.strV raw)
  | .choiceT => some (.strV raw)
  | .intT => raw.toInt?.map PValue.intV
  | .floatT => if isFloatText raw then some (.strV raw) else none

/-- Replace (or insert) the stored value of one parameter. -/
def setStoredValue (values : List (String × StoredValue)) (name : String)
    (v : StoredValue) : List (String × StoredValue) :=
  if values.any (fun kv => kv.1 == name) then
    values.map (fun kv => if kv.1 == name then (name, v) else kv)
  else values ++ [(name, v)]

/-- Modelled from the spec (§4.2): `set(name, value)` "fails if `name` does
not exist on the associated CommandSchema's parameter list. Coerces/validates
`value` against `value_type` and `choices` before storing; on mismatch, the
previous value is retained and a validation error is signaled to the
caller". -/
def UserCommandData.set (schema : CommandSchema) (data : UserCommandData)
    (name : String) (raw : String) : Except ValidationError UserCommandData :=
  match schema.parameters.find? (fun p => p.name == name) with
  | none => .error (.noSuchParameter name)
  | some p =>
    match coerceValue p.value_type raw with
    | none => .error (.coercionFailed name raw)
    | some v =>
      match p.choices with
      | some cs =>
        if cs.contains raw then
          .ok { data with values := setStoredValue data.values name (.singleV v) }
        else .error (.notInChoices name raw)
      | none =>
        .ok { data with values := setStoredValue data.values name (.singleV v) }

/-- The edit as the external form sees it (§6 "returning success or a
validation failure reason"): on failure the reason and the UNCHANGED data, on
success no reason and the updated data. -/
def applyFieldEdit (schema : CommandSchema) (data : UserCommandData)
    (name : String) (raw : String) : Option ValidationError × UserCommandData :=
  match UserCommandData.set schema data name raw with
  | .ok d => (none, d)
  | .error e => (some e, data)

/-! ## MultipleChoice widget (widgets/multiple_choice.py) -/

/-- One `Checkbox` child of the widget: its plain label and its value. -/
structure CheckboxState where
  label : String
  value : Bool
deriving DecidableEq

/-- The widget fields the claims touch. Python tuples of labels are modelled
as lists of strings, so the empty tuple `()` is `[]` and the one-element
tuple `(label,)` is `[label]`. -/
structure MultipleChoiceState where
  options : List String
  defaults : List (List String)
  selected : List (List String)
  checkboxes : List CheckboxState
deriving DecidableEq

/-- From `MultipleChoice.__init__` (lines 30-44): `defaults` falls back to
`[()]` when not given, and `self.selected = defaults`. The checkboxes are
the widget's children in compose order; `compose` initialises each checkbox's
value to `option in self.defaults`, a membership test of a string in a list
of tuples, which Python evaluates to `False` (a `str` never equals a
`tuple`). -/
def MultipleChoice.init (options : List String)
    (defaults : Option (List (List String))) : MultipleChoiceState :=
  let ds := defaults.getD [[]]
  { options := options
    defaults := ds
    selected := ds
    checkboxes := options.map (fun o => { label := o, value := false }) }

/-- The `for checkbox in checkboxes: if checkbox.value is True:
selected.append(checkbox)` loop of `on_checkbox_changed` (lines 57-62). -/
def collectChecked : List CheckboxState → List CheckboxState
  | [] => []
  | cb :: rest =>
    if cb.value = true then cb :: collectChecked rest else collectChecked rest

/-- From `MultipleChoice.on_checkbox_changed` (lines 57-64): gather the
checked checkboxes in widget order, set `self.selected` to the list of
one-element tuples of their plain labels, and post a `Changed` message
carrying the checked checkboxes themselves. Returns the updated widget state
and the message payload. -/
def MultipleChoice.on_checkbox_changed (s : MultipleChoiceState) :
    MultipleChoiceState × List CheckboxState :=
  let sel := collectChecked s.checkboxes
  ({ s with selected := sel.map (fun cb => [cb.label]) }, sel)

/-! ## The tui decorator (textual_click.py lines 261-277) -/

/-- A click command object: a plain command (its name plus an identifier for
its callback function, so that two distinct commands with the same name are
distinct objects) or a group holding its registered subcommands as an
insertion-ordered name-keyed mapping (Python dict semantics). A group's own
name is `none` for the anonymous `click.Group()` the decorator creates. -/
inductive ClickCommand where
  | cmd (name : String) (callback : String)
  | group (name : Option String) (commands : List (String × ClickCommand))

/-- `dict[name] = c`: overwrite in place if the key exists, else append. -/
def addCommand (cmds : List (String × ClickCommand)) (name : String)
    (c : ClickCommand) : List (String × ClickCommand) :=
  if cmds.any (fun kv => kv.1 == name) then
    cmds.map (fun kv => if kv.1 == name then (name, c) else kv)
  else cmds ++ [(name, c)]

/-- Lookup in a group's command mapping. -/
def lookupCommand (cmds : List (String × ClickCommand)) (name : String) :
    Option ClickCommand :=
  (cmds.find? (fun kv => kv.1 == name)).map (fun kv => kv.2)

/-- The `wrapped_tui` callback registered under the name "tui"
(`app.command(name="tui")(wrapped_tui)`, lines 263-265). -/
def wrappedTuiCommand : ClickCommand :=
  .cmd "tui" "wrapped_tui"

/-- From `tui` (lines 261-277): on a `click.Group`, register the "tui"
subcommand on it and return the group; on a plain command, build a new
anonymous `click.Group`, add the command (keyed by its own name via
`add_command`), register "tui" on the new group and return it. -/
def tui : ClickCommand → ClickCommand
  | .group n cmds => .group n (addCommand cmds "tui" wrappedTuiCommand)
  | .cmd n cb =>
    .group none (addCommand (addCommand [] n (.cmd n cb)) "tui" wrappedTuiCommand)

/-! ## Concrete fixtures (spec §8 examples) -/

/-- The `--force` flag of the spec's `deploy` example. -/
def forceFlagParam : ParameterSchema :=
  { name := "--force", kind := .flag, value_type := .stringT,
    multiplicity := .single, required := false, default := none, choices := none }

/-- The `--tag` multiple-value option of the spec's example. -/
def tagOptionParam : ParameterSchema :=
  { name := "--tag", kind := .option, value_type := .stringT,
    multiplicity := .multiple, required := false, default := none, choices := none }

/-- The `--env` choice-constrained option of the spec's example. -/
def envChoiceParam : ParameterSchema :=
  { name := "--env", kind := .option, value_type := .choiceT,
    multiplicity := .single, required := false, default := none,
    choices := some ["dev", "prod"] }

/-- The spec's example leaf command `deploy`. -/
def deploySchema : CommandSchema :=
  { name := "deploy", docstring := "",
    parameters := [envChoiceParam, forceFlagParam, tagOptionParam] }

/-- Stored values with the force flag set. -/
def forceValues : List (String × StoredValue) :=
  [("--force", StoredValue.flagV true)]

/-- Stored values with two `--tag` values, in order. -/
def tagValues : List (String × StoredValue) :=
  [("--tag", StoredValue.multiV [PValue.strV "a", PValue.strV "b"])]

/-- A `deploy` session holding a valid prior `--env` value. -/
def demoData : UserCommandData :=
  { path := [deploySchema], values := [("--env", StoredValue.singleV (PValue.strV "dev"))] }

/-- A first command node with one option parameter. -/
def alphaSchema : CommandSchema :=
  { name := "alpha", docstring := "",
    parameters := [{ name := "--x", kind := .option, value_type := .stringT,
                     multiplicity := .single, required := false, default := none,
                     choices := none }] }

/-- A second, different command node. -/
def betaSchema : CommandSchema :=
  { name := "beta", docstring := "", parameters := [] }

/-- The data entered while `alpha` was selected: `--x` set to `"old"`. -/
def alphaData : UserCommandData :=
  { path := [alphaSchema], values := [("--x", StoredValue.singleV (PValue.strV "old"))] }

/-- The builder state just before the user highlights `beta`: `alpha` is
selected and its entered data is stored. -/
def builderBeforeSelect : BuilderState :=
  { selected_command_schema := some alphaSchema, command_data := some alphaData,
    preview := none }

/-! ## Theorems -/

/-- Claim C1, as stated, is false on the code: at the concrete input
`is_grouped_cli = false` (a single-command CLI) both call sites compute
`include_root = not is_grouped_cli = true`, not the claimed `false`, and at
`is_grouped_cli = true` (a multi-command group) they compute `false`, not the
claimed `true`. -/
theorem include_root_claim_counterexample :
    ¬ (CommandBuilder.include_root false = false ∧
       TextualClick.include_root_command true = true) := by
  decide

/-- Claim C1 (amended): the serializer emits the root command's own name
exactly when `include_root` is true, and at both preview and commit time
`include_root` is the negation of `is_grouped_cli`: a single-command CLI
includes the root command's name and a multi-command group omits it. -/
theorem include_root_amended (g : Bool) (root : CommandSchema)
    (rest : List CommandSchema) (values : List (String × StoredValue)) :
    CommandBuilder.include_root g = !g ∧
    TextualClick.include_root_command g = !g ∧
    toCliArgs { path := root :: rest, values := values } true =
      root.name :: toCliArgs { path := root :: rest, values := values } false := by
  refine ⟨rfl, rfl, ?_⟩
  simp [toCliArgs, pathTokens]

/-- Claim C3: handling a `CommandForm.Changed` event stores exactly the
event's `UserCommandData` and synchronously recomputes the preview from it;
the recomputed preview is a function of the event's data alone (it does not
depend on any previously stored state). -/
theorem preview_synchronous_with_edit (a : String) (g : Bool)
    (e : UserCommandData) (s s' : BuilderState) :
    (updateCommandData a g e s).command_data = some e ∧
    (updateCommandData a g e s).preview =
      some ("$ " ++ a ++ " " ++ toCliString e (CommandBuilder.include_root g)) ∧
    (updateCommandData a g e s).preview = (updateCommandData a g e s').preview := by
  exact ⟨rfl, rfl, rfl⟩

/-- Claim C2, as stated, is false on the code at a concrete input: with
`alpha` selected and its entered data stored, highlighting the different node
`beta` leaves `command_data` holding `alpha`'s (non-empty) values and
recomputes the preview from that old data, not from a fresh
`UserCommandData` for `beta`. -/
theorem stale_data_on_selection_counterexample :
    (selectedCommandChanged "app" false betaSchema builderBeforeSelect).command_data
        = some alphaData ∧
    alphaData.values ≠ [] ∧
    (selectedCommandChanged "app" false betaSchema builderBeforeSelect).preview =
      some ("$ " ++ "app" ++ " " ++
        toCliString alphaData (CommandBuilder.include_root false)) ∧
    (selectedCommandChanged "app" false betaSchema builderBeforeSelect).preview ≠
      some ("$ " ++ "app" ++ " " ++
        toCliString (freshCommandData [betaSchema]) (CommandBuilder.include_root false)) := by
  refine ⟨rfl, by decide, rfl, by decide⟩

/-- Claim C2 (amended): highlighting a different node does not itself replace
`UserCommandData` — the selection handler keeps the previously stored
`command_data` (and recomputes the preview from it); the fresh
`UserCommandData` for the new node takes effect only when the remounted
form posts its `CommandForm.Changed` event, at which point the stored data
is exactly the fresh data and the recomputed preview is a function of the
fresh data alone, with no values carried over. -/
theorem fresh_data_only_after_form_changed (a : String) (g : Bool)
    (node : CommandSchema) (s s' : BuilderState) :
    (selectedCommandChanged a g node s).command_data = s.command_data ∧
    (updateCommandData a g (freshCommandData [node])
        (selectedCommandChanged a g node s)).command_data =
      some (freshCommandData [node]) ∧
    (updateCommandData a g (freshCommandData [node]) s).preview =
      (updateCommandData a g (freshCommandData [node]) s').preview := by
  refine ⟨?_, rfl, rfl⟩
  cases s with
  | mk sel cd pv => cases cd <;> rfl

/-- `execute_on_exit` can only become true through a commit event: the
`ctrl+r` action or the `home-exec-button` press. -/
theorem execute_on_exit_requires_commit (g : Bool) (events : List AppEvent) :
    ∀ (s : TextualClickState),
      (events.foldl (stepEvent g) s).execute_on_exit = true →
      s.execute_on_exit = true ∨ ∃ e ∈ events, isCommitEvent e := by
  induction events with
  | nil => intro s h; exact .inl h
  | cons e rest ih =>
    intro s h
    rcases ih (stepEvent g s e) h with h' | ⟨e', he', hc⟩
    · cases e with
      | action_close_and_run =>
        exact .inr ⟨.action_close_and_run, List.mem_cons_self _ _, trivial⟩
      | button_pressed i =>
        by_cases hi : i = "home-exec-button"
        · exact .inr ⟨.button_pressed i, List.mem_cons_self _ _, hi⟩
        · left
          simpa [stepEvent, hi] using h'
      | form_changed d =>
        left
        simpa [stepEvent] using h'
    · exact .inr ⟨e', List.mem_cons_of_mem _ he', hc⟩

/-- Claim C4: over any run of the app, the exit-time `execvp` step replaces
the process with `app_name :: post_run_command` exactly when
`execute_on_exit` was set and `post_run_command` is non-empty; and
`execute_on_exit` can only have been set by an explicit commit action
(`ctrl+r` or the run button), so without a commit event the run terminates
without relaunching. -/
theorem launch_only_after_commit (g : Bool) (a : String) (events : List AppEvent) :
    (∀ argv, postRunLaunch a (runTrace g events) = some argv ↔
      ((runTrace g events).execute_on_exit = true ∧
       (runTrace g events).post_run_command ≠ [] ∧
       argv = a :: (runTrace g events).post_run_command)) ∧
    ((runTrace g events).execute_on_exit = true → ∃ e ∈ events, isCommitEvent e) := by
  constructor
  · intro argv
    constructor
    · intro h
      unfold postRunLaunch at h
      by_cases h1 : (runTrace g events).post_run_command = []
      · simp [h1] at h
      · by_cases hex : (runTrace g events).execute_on_exit = true
        · rw [if_pos h1, if_pos ⟨h1, hex⟩] at h
          cases h
          exact ⟨hex, h1, rfl⟩
        · rw [if_pos h1, if_neg (fun hc => hex hc.2)] at h
          exact absurd h (by simp)
    · rintro ⟨hex, hne, rfl⟩
      unfold postRunLaunch
      rw [if_pos hne, if_pos ⟨hne, hex⟩]
  · intro h
    rcases execute_on_exit_requires_commit g events TextualClickState.init h with h' | h''
    · exact absurd h' (by decide)
    · exact h''

/-- Claim C6: for a FLAG parameter, `serialize` emits the flag token exactly
when the stored boolean is present and true, emits nothing otherwise, and
every token it emits for that parameter is the flag token itself (never a
value token). -/
theorem flag_serialization (values : List (String × StoredValue))
    (p : ParameterSchema) (hk : p.kind = ParameterKind.flag) :
    (lookupValue values p.name = some (StoredValue.flagV true) →
      emitParam values p = [p.name]) ∧
    (lookupValue values p.name ≠ some (StoredValue.flagV true) →
      emitParam values p = []) ∧
    (∀ t ∈ emitParam values p, t = p.name) := by
  unfold emitParam
  rw [hk]
  rcases hl : lookupValue values p.name with _ | v
  · refine ⟨fun h => absurd h (by simp), fun _ => rfl, fun t ht => absurd ht (by simp)⟩
  · rcases v with b | v | vs
    · cases b
      · refine ⟨fun h => absurd h (by simp), fun _ => rfl, fun t ht => absurd ht (by simp)⟩
      · refine ⟨fun _ => rfl, fun h => absurd rfl h, fun t ht => ?_⟩
        simpa using ht
    · refine ⟨fun h => absurd h (by simp), fun _ => rfl, fun t ht => absurd ht (by simp)⟩
    · refine ⟨fun h => absurd h (by simp), fun _ => rfl, fun t ht => absurd ht (by simp)⟩

/-- Witness for claim C6 at the spec's `--force` example: the flag stored
true emits exactly the flag token. -/
theorem flag_serialization_witness :
    (lookupValue forceValues forceFlagParam.name = some (StoredValue.flagV true) →
      emitParam forceValues forceFlagParam = [forceFlagParam.name]) ∧
    (lookupValue forceValues forceFlagParam.name ≠ some (StoredValue.flagV true) →
      emitParam forceValues forceFlagParam = []) ∧
    (∀ t ∈ emitParam forceValues forceFlagParam, t = forceFlagParam.name) :=
  flag_serialization forceValues forceFlagParam rfl

/-- The interleaved flag/value list of a multiple-value option has twice as
many tokens as values. -/
theorem flatMap_pair_length (name : String) (vs : List PValue) :
    (vs.flatMap (fun v => [name, renderValue v])).length = 2 * vs.length := by
  induction vs with
  | nil => rfl
  | cons v vs ih =>
    simp only [List.flatMap_cons, List.length_append, ih, List.length_cons,
      List.length_nil]
    omega

/-- Claim C7: an OPTION parameter with multiplicity multiple holding a stored
sequence `vs` serializes to the flag token repeated once per value, each
occurrence immediately followed by the rendered value, in stored order
(`2 * N` tokens in total for `N` values). -/
theorem multi_option_serialization (values : List (String × StoredValue))
    (p : ParameterSchema) (vs : List PValue)
    (hk : p.kind = ParameterKind.option)
    (hm : p.multiplicity = Multiplicity.multiple)
    (hl : lookupValue values p.name = some (StoredValue.multiV vs)) :
    emitParam values p = vs.flatMap (fun v => [p.name, renderValue v]) ∧
    (emitParam values p).length = 2 * vs.length := by
  have hsd : storedOrDefault values p = some (StoredValue.multiV vs) := by
    unfold storedOrDefault
    rw [hl]
  unfold emitParam
  rw [hk, hm, hsd]
  exact ⟨rfl, flatMap_pair_length p.name vs⟩

/-- Witness for claim C7 at the spec's `--tag` example with values
`["a", "b"]`: the fragment is `["--tag", "a", "--tag", "b"]`. -/
theorem multi_option_serialization_witness :
    emitParam tagValues tagOptionParam =
      [PValue.strV "a", PValue.strV "b"].flatMap
        (fun v => [tagOptionParam.name, renderValue v]) ∧
    (emitParam tagValues tagOptionParam).length =
      2 * [PValue.strV "a", PValue.strV "b"].length :=
  multi_option_serialization tagValues tagOptionParam
    [PValue.strV "a", PValue.strV "b"] rfl rfl rfl

/-- Claim C8: a field edit whose name resolves to no parameter of the
associated command, or whose raw text fails type coercion, or which violates
the declared choice set, is answered with a validation error and the stored
values are left exactly as they were (the edit is never silent and never
partially applied). -/
theorem set_rejects_invalid (schema : CommandSchema) (data : UserCommandData)
    (name raw : String)
    (h : ∀ p, schema.parameters.find? (fun q => q.name == name) = some p →
      coerceValue p.value_type raw = none ∨
      ∃ cs, p.choices = some cs ∧ cs.contains raw = false) :
    ∃ e, applyFieldEdit schema data name raw = (some e, data) := by
  rcases hf : schema.parameters.find? (fun q => q.name == name) with _ | p
  · exact ⟨.noSuchParameter name,
      by simp [applyFieldEdit, UserCommandData.set, hf]⟩
  · rcases h p hf with hc | ⟨cs, hcs, hraw⟩
    · exact ⟨.coercionFailed name raw,
        by simp [applyFieldEdit, UserCommandData.set, hf, hc]⟩
    · rcases hcv : coerceValue p.value_type raw with _ | v
      · exact ⟨.coercionFailed name raw,
          by simp [applyFieldEdit, UserCommandData.set, hf, hcv]⟩
      · have hmem : raw ∉ cs := by simpa using hraw
        exact ⟨.notInChoices name raw,
          by simp [applyFieldEdit, UserCommandData.set, hf, hcv, hcs, hmem]⟩

/-- Witness for claim C8 at the spec's choices example: setting `--env` of
`deploy` to `"staging"`, outside `{dev, prod}`, returns a ValidationError and
leaves the prior stored value in place. -/
theorem set_rejects_invalid_witness :
    ∃ e, applyFieldEdit deploySchema demoData "--env" "staging" = (some e, demoData) :=
  set_rejects_invalid deploySchema demoData "--env" "staging"
    (fun p hp => by
      have hp' : some envChoiceParam = some p := hp
      cases hp'
      exact Or.inr ⟨["dev", "prod"], rfl, rfl⟩)

/-- The appending loop of `on_checkbox_changed` collects exactly the
checkboxes whose value is `True`, in widget order. -/
theorem collectChecked_eq_filter (l : List CheckboxState) :
    collectChecked l = l.filter (fun cb => cb.value) := by
  induction l with
  | nil => rfl
  | cons cb rest ih =>
    by_cases h : cb.value = true
    · simp [collectChecked, h, ih, List.filter_cons]
    · simp [collectChecked, h, ih, List.filter_cons]

/-- Claim C9: after every checkbox-change event, `selected` equals the list
of one-element tuples of the plain labels of exactly the checkboxes whose
value is True, in the widget's checkbox order, and the posted `Changed`
message carries exactly those checked checkboxes; initially `selected`
equals `defaults`, which is `[()]` when no defaults are given. -/
theorem multiple_choice_selected (s : MultipleChoiceState)
    (options : List String) (ds : List (List String)) :
    (MultipleChoice.on_checkbox_changed s).1.selected =
      (s.checkboxes.filter (fun cb => cb.value)).map (fun cb => [cb.label]) ∧
    (MultipleChoice.on_checkbox_changed s).2 =
      s.checkboxes.filter (fun cb => cb.value) ∧
    (MultipleChoice.init options (some ds)).selected = ds ∧
    (MultipleChoice.init options none).selected = [[]] := by
  refine ⟨?_, ?_, rfl, rfl⟩
  · show (collectChecked s.checkboxes).map (fun cb => [cb.label]) = _
    rw [collectChecked_eq_filter]
  · show collectChecked s.checkboxes = _
    rw [collectChecked_eq_filter]

/-- Overwriting an existing key in the insertion-ordered mapping makes the
key map to the new entry. -/
theorem find?_overwrite (cmds : List (String × ClickCommand)) (name : String)
    (c : ClickCommand) (h : cmds.any (fun kv => kv.1 == name) = true) :
    (cmds.map (fun kv => if kv.1 == name then (name, c) else kv)).find?
      (fun kv => kv.1 == name) = some (name, c) := by
  induction cmds with
  | nil => simp at h
  | cons kv rest ih =>
    rw [List.map_cons]
    by_cases hk : kv.1 = name
    · rw [if_pos (show (kv.1 == name) = true by simpa using hk)]
      simp only [List.find?]
      rw [show (((name, c).1 == name) = true) by simp]
    · have h' : rest.any (fun kv => kv.1 == name) = true := by
        simpa [List.any_cons, hk] using h
      rw [if_neg (fun hc => hk (by simpa using hc))]
      simp only [List.find?]
      rw [show ((kv.1 == name) = false) by simpa using hk]
      exact ih h'

/-- Overwriting the entry of `name` leaves every other key's entry as it
was. -/
theorem find?_overwrite_other (cmds : List (String × ClickCommand))
    (name : String) (c : ClickCommand) (m : String) (hm : (name == m) = false) :
    (cmds.map (fun kv => if kv.1 == name then (name, c) else kv)).find?
      (fun kv => kv.1 == m) = cmds.find? (fun kv => kv.1 == m) := by
  induction cmds with
  | nil => rfl
  | cons kv rest ih =>
    have hm' : name ≠ m := by simpa [beq_eq_false_iff_ne] using hm
    rw [List.map_cons]
    by_cases hk : kv.1 = name
    · rw [if_pos (show (kv.1 == name) = true by simpa using hk)]
      simp only [List.find?]
      rw [show (((name, c).1 == m) = false) by simpa using hm']
      rw [show ((kv.1 == m) = false) by
        simp only [hk]
        simpa using hm']
      exact ih
    · rw [if_neg (fun hc => hk (by simpa using hc))]
      simp only [List.find?]
      by_cases hkm : kv.1 = m
      · rw [show ((kv.1 == m) = true) by simpa using hkm]
      · rw [show ((kv.1 == m) = false) by simpa using hkm]
        exact ih

/-- `addCommand` makes `name` map to `c`. -/
theorem lookupCommand_addCommand_self (cmds : List (String × ClickCommand))
    (name : String) (c : ClickCommand) :
    lookupCommand (addCommand cmds name c) name = some c := by
  unfold addCommand lookupCommand
  by_cases h : cmds.any (fun kv => kv.1 == name)
  · rw [if_pos h, find?_overwrite cmds name c h]
    rfl
  · rw [if_neg h]
    have hnone : cmds.find? (fun kv => kv.1 == name) = none := by
      rw [List.find?_eq_none]
      intro kv hkv hbeq
      exact h (List.any_of_mem hkv hbeq)
    rw [List.find?_append, hnone]
    simp

/-- `addCommand` leaves every other key's entry as it was. -/
theorem lookupCommand_addCommand_other (cmds : List (String × ClickCommand))
    (name : String) (c : ClickCommand) (m : String) (hm : m ≠ name) :
    lookupCommand (addCommand cmds name c) m = lookupCommand cmds m := by
  have hnm : (name == m) = false := by
    simp [beq_eq_false_iff_ne]
    exact fun hc => hm hc.symm
  unfold addCommand lookupCommand
  by_cases h : cmds.any (fun kv => kv.1 == name)
  · rw [if_pos h, find?_overwrite_other cmds name c m hnm]
  · rw [if_neg h, List.find?_append]
    have : List.find? (fun kv => kv.1 == m) [(name, c)] = none := by
      simp [List.find?_cons, hnm]
    rw [this]
    simp

/-- Claim C10, as stated, is false at a concrete input: for a non-group
command named "tui" itself, `add_command` keys it as "tui" and the
subsequent `new_group.command(name="tui")` overwrites that same dict key, so
the returned group holds only the "tui" subcommand and no longer contains
the original command. -/
theorem tui_decorator_counterexample :
    tui (ClickCommand.cmd "tui" "orig") =
      ClickCommand.group none [("tui", wrappedTuiCommand)] ∧
    lookupCommand [("tui", wrappedTuiCommand)] "tui" = some wrappedTuiCommand ∧
    ¬ lookupCommand [("tui", wrappedTuiCommand)] "tui" =
        some (ClickCommand.cmd "tui" "orig") := by
  refine ⟨rfl, rfl, fun h => ?_⟩
  have h' : wrappedTuiCommand = ClickCommand.cmd "tui" "orig" :=
    Option.some.inj h
  injection h' with h1 h2
  exact absurd h2 (by decide)

/-- Claim C10 (amended): applied to a `click.Group`, the `tui` decorator
returns that group with a new subcommand registered under "tui" and every
other registered command untouched; applied to a non-group command whose own
name is not "tui", it returns a newly created group that contains the
original command (keyed by its own name, unmodified) together with the "tui"
subcommand; a non-group command named "tui" itself is overwritten in the new
group by the "tui" subcommand (click's dict-key overwrite), whatever its
callback. -/
theorem tui_decorator (n : Option String) (cmds : List (String × ClickCommand))
    (cn cb : String) :
    (∃ cmds', tui (.group n cmds) = .group n cmds' ∧
      lookupCommand cmds' "tui" = some wrappedTuiCommand ∧
      ∀ m, m ≠ "tui" → lookupCommand cmds' m = lookupCommand cmds m) ∧
    (cn ≠ "tui" →
      tui (.cmd cn cb) =
        .group none [(cn, ClickCommand.cmd cn cb), ("tui", wrappedTuiCommand)]) ∧
    tui (ClickCommand.cmd "tui" cb) =
      ClickCommand.group none [("tui", wrappedTuiCommand)] := by
  refine ⟨?_, ?_, ?_⟩
  · refine ⟨addCommand cmds "tui" wrappedTuiCommand, rfl,
      lookupCommand_addCommand_self cmds "tui" wrappedTuiCommand,
      fun m hm => lookupCommand_addCommand_other cmds "tui" wrappedTuiCommand m hm⟩
  · intro hcn
    have hc : (cn == "tui") = false := by
      simpa [beq_eq_false_iff_ne] using hcn
    show ClickCommand.group none
        (addCommand (addCommand [] cn (.cmd cn cb)) "tui" wrappedTuiCommand) = _
    rw [show addCommand [] cn (.cmd cn cb) = [(cn, .cmd cn cb)] from rfl]
    unfold addCommand
    simp [List.any_cons, hc]
  · rfl

/-- A shlex-safe character is not a field separator, a quote or a
backslash. -/
theorem safe_char_facts (c : Char) (h : shlexSafeChar c = true) :
    isShellSpace c = false ∧ c ≠ '\'' ∧ c ≠ '"' ∧ c ≠ '\\' := by
  refine ⟨?_, ?_, ?_, ?_⟩
  · by_contra hsp
    have hsp' : c = ' ' ∨ c = '\t' ∨ c = '\n' := by
      have : isShellSpace c = true := by
        cases hb : isShellSpace c
        · exact absurd hb hsp
        · rfl
      simpa [isShellSpace, or_assoc] using this
    rcases hsp' with rfl | rfl | rfl <;> exact absurd h (by decide)
  · rintro rfl
    exact absurd h (by decide)
  · rintro rfl
    exact absurd h (by decide)
  · rintro rfl
    exact absurd h (by decide)

/-- A non-blank ordinary character extends the current field. -/
theorem tokenizeAux_cons_norm_other (c : Char) (cs : List Char)
    (w : Option (List Char)) (h1 : isShellSpace c = false) (h2 : c ≠ '\'')
    (h3 : c ≠ '"') (h4 : c ≠ '\\') :
    tokenizeAux (c :: cs) .norm w = tokenizeAux cs .norm (some (w.getD [] ++ [c])) := by
  simp [tokenizeAux, h1, h2, h3, h4]

/-- Scanning a run of shlex-safe characters appends them to the current
field. -/
theorem tokenizeAux_safe_run (l : List Char) (hl : ∀ c ∈ l, shlexSafeChar c = true) :
    ∀ (cs : List Char) (acc : List Char),
      tokenizeAux (l ++ cs) .norm (some acc) = tokenizeAux cs .norm (some (acc ++ l)) := by
  induction l with
  | nil =>
    intro cs acc
    rw [List.nil_append, List.append_nil]
  | cons c l' ih =>
    intro cs acc
    obtain ⟨h1, h2, h3, h4⟩ := safe_char_facts c (hl c (List.mem_cons_self c l'))
    rw [List.cons_append, tokenizeAux_cons_norm_other c _ _ h1 h2 h3 h4]
    rw [ih (fun x hx => hl x (List.mem_cons_of_mem _ hx)) cs]
    simp

/-- Scanning the escaped body of a single-quoted token from inside single
quotes appends the original characters to the current field and returns to
the single-quote state. -/
theorem tokenizeAux_escaped_run (l : List Char) :
    ∀ (cs : List Char) (acc : List Char),
      tokenizeAux (escQuoted l ++ cs) .single (some acc) =
        tokenizeAux cs .single (some (acc ++ l)) := by
  induction l with
  | nil =>
    intro cs acc
    rw [show escQuoted [] = [] from rfl, List.nil_append, List.append_nil]
  | cons c l' ih =>
    intro cs acc
    have hstep : escQuoted (c :: l') = escQuoteChar c ++ escQuoted l' := by
      simp [escQuoted]
    rw [hstep, List.append_assoc]
    by_cases hc : c = '\''
    · subst hc
      rw [show escQuoteChar '\'' = ['\'', '"', '\'', '"', '\''] from rfl]
      have hbig : tokenizeAux (['\'', '"', '\'', '"', '\''] ++ (escQuoted l' ++ cs))
          QuoteMode.single (some acc) =
          tokenizeAux (escQuoted l' ++ cs) .single (some (acc ++ ['\''])) := rfl
      rw [hbig, ih cs (acc ++ ['\''])]
      simp
    · rw [show escQuoteChar c = [c] from if_neg hc, List.singleton_append]
      rw [show tokenizeAux (c :: (escQuoted l' ++ cs)) .single (some acc) =
          tokenizeAux (escQuoted l' ++ cs) .single (some (acc ++ [c])) by
        simp [tokenizeAux, hc]]
      rw [ih cs (acc ++ [c])]
      simp

/-- Recognising one shlex-quoted token at the start of a field: after the
quoted form of `t`, the tokenizer is outside quotes with the original `t` as
the current field, whatever the token's shape (empty, safe, or
single-quoted). -/
theorem tokenizeAux_quote (t : String) (cs : List Char) :
    tokenizeAux ((shlexQuote t).toList ++ cs) .norm none =
      tokenizeAux cs .norm (some t.toList) := by
  by_cases h0 : t.toList = []
  · have hq : (shlexQuote t).toList = ['\'', '\''] := by
      rw [shlexQuote, if_pos h0]
      rfl
    rw [hq, h0]
    rfl
  · by_cases hsafe : t.toList.all shlexSafeChar = true
    · have hq : (shlexQuote t).toList = t.toList := by
        rw [shlexQuote, if_neg h0, if_pos hsafe]
      rcases ht : t.toList with _ | ⟨c, l⟩
      · exact absurd ht h0
      · have hall : ∀ x ∈ t.toList, shlexSafeChar x = true := List.all_eq_true.mp hsafe
        rw [ht] at hall
        obtain ⟨h1, h2, h3, h4⟩ := safe_char_facts c (hall c (List.mem_cons_self c l))
        rw [hq, ht, List.cons_append, tokenizeAux_cons_norm_other c _ _ h1 h2 h3 h4]
        rw [tokenizeAux_safe_run l (fun x hx => hall x (List.mem_cons_of_mem _ hx)) cs]
        simp
    · have hq : (shlexQuote t).toList = '\'' :: (escQuoted t.toList ++ ['\'']) := by
        rw [shlexQuote, if_neg h0, if_neg hsafe]
        rfl
      rw [hq, List.cons_append]
      have s1 : tokenizeAux ('\'' :: ((escQuoted t.toList ++ ['\'']) ++ cs))
          QuoteMode.norm none =
          tokenizeAux ((escQuoted t.toList ++ ['\'']) ++ cs) .single (some []) := rfl
      rw [s1, List.append_assoc, List.singleton_append]
      rw [tokenizeAux_escaped_run t.toList ('\'' :: cs) []]
      have s2 : tokenizeAux ('\'' :: cs) QuoteMode.single (some ([] ++ t.toList)) =
          tokenizeAux cs .norm (some ([] ++ t.toList)) := rfl
      rw [s2, List.nil_append]

/-- Claim C5: re-tokenizing the generated display string with the
POSIX-shell-compatible tokenizer yields exactly the original `argv`: every
token is shlex-quoted (tokens of safe characters stay bare, all others are
single-quoted round-trip-safely) and the quoted tokens are joined with
single spaces. -/
theorem display_string_round_trip (argv : List String) :
    shellTokenize (displayString argv) = argv := by
  induction argv with
  | nil => rfl
  | cons t rest ih =>
    cases rest with
    | nil =>
      show tokenizeAux (joinSpace ([t].map shlexQuote)).toList .norm none = [t]
      rw [show joinSpace ([t].map shlexQuote) = shlexQuote t from rfl]
      have h := tokenizeAux_quote t []
      rw [List.append_nil] at h
      rw [h]
      rw [show tokenizeAux [] QuoteMode.norm (some t.toList) = [String.mk t.toList]
        from rfl]
      rw [show String.mk t.toList = t from rfl]
    | cons t2 rest' =>
      show tokenizeAux
        (joinSpace ((t :: t2 :: rest').map shlexQuote)).toList .norm none =
          t :: t2 :: rest'
      rw [show joinSpace ((t :: t2 :: rest').map shlexQuote) =
          shlexQuote t ++ " " ++ joinSpace ((t2 :: rest').map shlexQuote) from rfl]
      have hdata :
          (shlexQuote t ++ " " ++ joinSpace ((t2 :: rest').map shlexQuote)).toList =
          (shlexQuote t).toList ++
            (' ' :: (joinSpace ((t2 :: rest').map shlexQuote)).toList) := by
        show (shlexQuote t ++ " " ++ joinSpace ((t2 :: rest').map shlexQuote)).data = _
        rw [String.data_append, String.data_append]
        rw [show (" " : String).data = [' '] from rfl, List.append_assoc]
        rfl
      rw [hdata, tokenizeAux_quote]
      rw [show tokenizeAux
            (' ' :: (joinSpace ((t2 :: rest').map shlexQuote)).toList)
            QuoteMode.norm (some t.toList) =
          String.mk t.toList ::
            tokenizeAux (joinSpace ((t2 :: rest').map shlexQuote)).toList
              QuoteMode.norm none from rfl]
      rw [show String.mk t.toList = t from rfl]
      exact congrArg (t :: ·) ih
